import Mathlib

/-!
# Verification of the VisionCraft bot credit ledger

A shallow embedding of `src/vision_craft_bot.py`.  The `UserDataManager`
class keeps a JSON dictionary mapping the stringified user id to a record
`{credits, videos_created, last_bonus_claim, referred_by}`; we model the
dictionary as an association list with first-match lookup (Python `dict`
keys are unique, so first-match lookup agrees with dict lookup on every
reachable state).  Wall-clock UTC time (`datetime.utcnow()`) is passed in
explicitly as an integer number of seconds; the ISO-8601 round trip through
`isoformat`/`fromisoformat` is the identity on the stored instant.
A Python operation that can raise an uncaught exception is embedded with an
`Option` result, `none` standing for the exception escaping.
-/

namespace VisionCraft

/-- Configuration constants from the top of `vision_craft_bot.py`. -/
def STARTING_CREDITS : Int := 50

def VIDEO_COST : Int := 10

def DAILY_BONUS : Int := 20

def REFERRAL_BONUS : Int := 30

/-- 24 hours (`timedelta(hours=24)`) in seconds. -/
def HOURS24 : Int := 86400

/-- One record of `users_data`: the per-user JSON object. -/
structure Account where
  credits : Int
  videos_created : Nat
  last_bonus_claim : Option Int
  referred_by : Option Int
  deriving Repr, DecidableEq

/-- The fresh record written by `add_user`. -/
def Account.fresh : Account :=
  { credits := STARTING_CREDITS, videos_created := 0
    last_bonus_claim := none, referred_by := none }

/-- The `users_data` dictionary: user id, account record; keys unique in
every state reachable from the code. -/
abbrev UserData := List (Int × Account)

/-- `self.users_data.get(str(user_id))` (method `get_user`). -/
def get_user : UserData → Int → Option Account
  | [], _ => none
  | (k, v) :: rest, uid => if k = uid then some v else get_user rest uid

/-- In-place update of the record stored under a present key, as Python
`self.users_data[user_id_str] = ...` / field mutation behaves on a dict. -/
def setUser : UserData → Int → Account → UserData
  | [], _, _ => []
  | (k, v) :: rest, uid, a =>
      if k = uid then (k, a) :: rest else (k, v) :: setUser rest uid a

/-- `add_user`: insert a fresh record iff the id is absent; return whether
a record was created (dict insertion appends the new key). -/
def add_user (db : UserData) (uid : Int) : Bool × UserData :=
  match get_user db uid with
  | some _ => (false, db)
  | none => (true, db ++ [(uid, Account.fresh)])

/-- `get_all_user_ids`: `list(self.users_data.keys())`. -/
def get_all_user_ids (db : UserData) : List Int := db.map Prod.fst

/-- `update_credits`: add `amount` to the balance if the account exists and
return the new balance; otherwise fall through (Python returns `None`). -/
def update_credits (db : UserData) (uid : Int) (amount : Int) :
    Option Int × UserData :=
  match get_user db uid with
  | some u =>
      (some (u.credits + amount),
       setUser db uid { u with credits := u.credits + amount })
  | none => (none, db)

/-- `record_video_generation`: increment `videos_created` if the account
exists. -/
def record_video_generation (db : UserData) (uid : Int) : UserData :=
  match get_user db uid with
  | some u => setUser db uid { u with videos_created := u.videos_created + 1 }
  | none => db

/-- `can_claim_bonus`: true when the account is missing or has no
`last_bonus_claim`; otherwise `utcnow() >= last_claim + 24h`. -/
def can_claim_bonus (db : UserData) (uid : Int) (now : Int) : Bool :=
  match get_user db uid with
  | none => true
  | some u =>
      match u.last_bonus_claim with
      | none => true
      | some t => decide (now ≥ t + HOURS24)

/-- `claim_bonus`: when `can_claim_bonus` holds, write `last_bonus_claim`
via `self.users_data[user_id_str][...]` — a `KeyError` (embedded as `none`)
when the id is absent — then credit `DAILY_BONUS` and return `True`;
otherwise return `False` unchanged. -/
def claim_bonus (db : UserData) (uid : Int) (now : Int) :
    Option (Bool × UserData) :=
  if can_claim_bonus db uid now then
    match get_user db uid with
    | none => none
    | some u =>
        let db1 := setUser db uid { u with last_bonus_claim := some now }
        some (true, (update_credits db1 uid DAILY_BONUS).2)
  else some (false, db)

/-- `set_referrer`: set `referred_by` iff the id is present and
`referred_by` is `None`; the method has no check of `referrer_id` against
`user_id`. -/
def set_referrer (db : UserData) (uid : Int) (referrer_id : Int) :
    Bool × UserData :=
  match get_user db uid with
  | some u =>
      match u.referred_by with
      | none => (true, setUser db uid { u with referred_by := some referrer_id })
      | some _ => (false, db)
  | none => (false, db)

/-- Outcome of the external video API call in `process_prompt`:
a timeout (`requests.exceptions.Timeout`), a non-2xx status
(`raise_for_status`), an unparsable body (`response.json()` raising), or a
parsed JSON payload with its `success` flag and optional `url`. -/
inductive ApiResult where
  | timeout
  | httpError
  | malformedJson
  | payload (success : Bool) (url : Option String)
  deriving Repr, DecidableEq

/-- The Ledger effect of `process_prompt`: only a parsed payload with
`success` truthy debits `VIDEO_COST` and records the generation; every
other outcome leaves `users_data` untouched. -/
def process_prompt_ledger (db : UserData) (uid : Int) (r : ApiResult) :
    UserData :=
  match r with
  | .payload true _ =>
      record_video_generation (update_credits db uid (-VIDEO_COST)).2 uid
  | _ => db

/-- What one `copy(chat_id=...)` delivery in `admin_broadcast_send` does:
succeed, raise `Forbidden`, raise `BadRequest`, or raise any other
exception class. -/
inductive DeliveryOutcome where
  | ok
  | forbidden
  | badRequest
  | otherError
  deriving Repr, DecidableEq

/-- The `for user_id in ...` loop of `admin_broadcast_send` with its
`sent`/`failed` accumulators: `except (Forbidden, BadRequest)` counts a
failure; any other exception escapes the loop (embedded as `none`). -/
def broadcast_loop (outcome : Int → DeliveryOutcome) :
    List Int → Nat → Nat → Option (Nat × Nat)
  | [], sent, failed => some (sent, failed)
  | uid :: rest, sent, failed =>
      match outcome uid with
      | .ok => broadcast_loop outcome rest (sent + 1) failed
      | .forbidden => broadcast_loop outcome rest sent (failed + 1)
      | .badRequest => broadcast_loop outcome rest sent (failed + 1)
      | .otherError => none

/-- `admin_broadcast_send`: iterate all known user ids and report the
`(sent, failed)` counts, or `none` when an exception escapes the loop. -/
def admin_broadcast_send (db : UserData) (outcome : Int → DeliveryOutcome) :
    Option (Nat × Nat) :=
  broadcast_loop outcome (get_all_user_ids db) 0 0

/-! ## Basic lemmas about the dictionary embedding -/

theorem get_user_setUser_self (db : UserData) (uid : Int) (a u : Account)
    (h : get_user db uid = some u) : get_user (setUser db uid a) uid = some a := by
  induction db with
  | nil => simp [get_user] at h
  | cons p rest ih =>
    obtain ⟨k, v⟩ := p
    by_cases hk : k = uid
    · subst hk; simp [get_user, setUser]
    · simp [get_user, setUser, hk] at h ⊢
      exact ih h

theorem get_user_setUser_ne (db : UserData) (uid v : Int) (a : Account)
    (h : v ≠ uid) : get_user (setUser db uid a) v = get_user db v := by
  induction db with
  | nil => simp [setUser]
  | cons p rest ih =>
    obtain ⟨k, w⟩ := p
    by_cases hk : k = uid
    · subst hk
      have hkv : ¬ k = v := fun h2 => h h2.symm
      simp [get_user, setUser, hkv]
    · simp only [setUser, if_neg hk, get_user]
      by_cases hv : k = v
      · simp [hv]
      · simp [hv, ih]

theorem setUser_setUser (db : UserData) (uid : Int) (a b : Account) :
    setUser (setUser db uid a) uid b = setUser db uid b := by
  induction db with
  | nil => simp [setUser]
  | cons p rest ih =>
    obtain ⟨k, v⟩ := p
    by_cases hk : k = uid
    · subst hk; simp [setUser]
    · simp [setUser, hk, ih]

theorem get_user_append_self (db : UserData) (uid : Int) (a : Account)
    (h : get_user db uid = none) : get_user (db ++ [(uid, a)]) uid = some a := by
  induction db with
  | nil => simp [get_user]
  | cons p rest ih =>
    obtain ⟨k, v⟩ := p
    by_cases hk : k = uid
    · simp [get_user, hk] at h
    · simp [get_user, hk] at h ⊢
      exact ih h

theorem get_user_append_ne (db : UserData) (uid v : Int) (a : Account)
    (h : v ≠ uid) : get_user (db ++ [(uid, a)]) v = get_user db v := by
  induction db with
  | nil =>
    have huv : ¬ uid = v := fun h2 => h h2.symm
    simp [get_user, huv]
  | cons p rest ih =>
    obtain ⟨k, w⟩ := p
    by_cases hv : k = v
    · simp [get_user, hv]
    · simp [get_user, hv, ih]

/-- On an existing account, an eligible `claim_bonus` writes the claim time
and the bonus into the one record in a single returned state. -/
theorem claim_bonus_success_shape (db : UserData) (uid now : Int) (u : Account)
    (h : get_user db uid = some u) (hc : can_claim_bonus db uid now = true) :
    claim_bonus db uid now =
      some (true, setUser db uid
        { u with credits := u.credits + DAILY_BONUS,
                 last_bonus_claim := some now }) := by
  have h1 : get_user (setUser db uid { u with last_bonus_claim := some now }) uid
      = some { u with last_bonus_claim := some now } :=
    get_user_setUser_self db uid _ u h
  simp [claim_bonus, hc, h, update_credits, h1, setUser_setUser]

/-! ## Claim theorems -/

/-- C2: `add_user(id)` inserts a fresh record (`credits = STARTING_CREDITS`,
`videos_created = 0`, `last_bonus_claim` absent, `referred_by` absent) iff no
record with that id exists, returns whether it created one, and leaves every
other record unchanged; a second call in a row returns `false` and changes
nothing. -/
theorem add_user_correct (db : UserData) (uid : Int) :
    (get_user db uid = none →
        add_user db uid = (true, db ++ [(uid, Account.fresh)]) ∧
        get_user (add_user db uid).2 uid = some Account.fresh ∧
        ∀ v, v ≠ uid → get_user (add_user db uid).2 v = get_user db v) ∧
    (get_user db uid ≠ none → add_user db uid = (false, db)) ∧
    add_user (add_user db uid).2 uid = (false, (add_user db uid).2) := by
  refine ⟨?_, ?_, ?_⟩
  · intro h
    refine ⟨by simp [add_user, h], ?_, ?_⟩
    · simp only [add_user, h]
      exact get_user_append_self db uid _ h
    · intro v hv
      simp only [add_user, h]
      exact get_user_append_ne db uid v _ hv
  · intro h
    cases hg : get_user db uid with
    | none => exact absurd hg h
    | some u => simp [add_user, hg]
  · cases hg : get_user db uid with
    | some u => simp [add_user, hg]
    | none =>
      have h2 : get_user (db ++ [(uid, Account.fresh)]) uid = some Account.fresh :=
        get_user_append_self db uid _ hg
      simp [add_user, hg, h2]

/-- C6: `update_credits(id, delta)` adds `delta` to the balance of an existing account, returns the new balance, leaves other accounts unchanged and has no
non-negativity floor (the balance is an unconstrained integer); on a missing
id it returns no balance and changes nothing. -/
theorem update_credits_correct (db : UserData) (uid delta : Int) :
    (∀ u, get_user db uid = some u →
        update_credits db uid delta =
          (some (u.credits + delta),
           setUser db uid { u with credits := u.credits + delta }) ∧
        get_user (update_credits db uid delta).2 uid =
          some { u with credits := u.credits + delta } ∧
        ∀ v, v ≠ uid →
          get_user (update_credits db uid delta).2 v = get_user db v) ∧
    (get_user db uid = none → update_credits db uid delta = (none, db)) := by
  constructor
  · intro u h
    refine ⟨by simp [update_credits, h], ?_, ?_⟩
    · simp only [update_credits, h]
      exact get_user_setUser_self db uid _ u h
    · intro v hv
      simp only [update_credits, h]
      exact get_user_setUser_ne db uid v _ hv
  · intro h
    simp [update_credits, h]

/-- C10: `can_claim_bonus(id)` on an id with no account returns `true` — the
check does not distinguish a missing account from one that never claimed. -/
theorem can_claim_bonus_missing_account (db : UserData) (uid now : Int)
    (h : get_user db uid = none) : can_claim_bonus db uid now = true := by
  simp [can_claim_bonus, h]

/-- Witness for C10 at the empty ledger. -/
theorem can_claim_bonus_missing_account_witness :
    get_user ([] : UserData) 1 = none ∧ can_claim_bonus [] 1 0 = true :=
  ⟨rfl, can_claim_bonus_missing_account [] 1 0 rfl⟩

/-- C1: for an existing account, when `can_claim_bonus` holds, `claim_bonus`
sets `last_bonus_claim` to the current time, adds exactly `DAILY_BONUS` to
the credits — both visible together in the returned state — leaves every
other account unchanged, and returns `true`; when `can_claim_bonus` is
false it returns `false` with the state untouched. -/
theorem claim_bonus_correct (db : UserData) (uid now : Int) (u : Account)
    (h : get_user db uid = some u) :
    (can_claim_bonus db uid now = true →
        claim_bonus db uid now =
          some (true, setUser db uid
            { u with credits := u.credits + DAILY_BONUS,
                     last_bonus_claim := some now }) ∧
        get_user (setUser db uid
            { u with credits := u.credits + DAILY_BONUS,
                     last_bonus_claim := some now }) uid =
          some { u with credits := u.credits + DAILY_BONUS,
                        last_bonus_claim := some now } ∧
        ∀ v, v ≠ uid →
          get_user (setUser db uid
            { u with credits := u.credits + DAILY_BONUS,
                     last_bonus_claim := some now }) v = get_user db v) ∧
    (can_claim_bonus db uid now = false →
        claim_bonus db uid now = some (false, db)) := by
  constructor
  · intro hc
    exact ⟨claim_bonus_success_shape db uid now u h hc,
           get_user_setUser_self db uid _ u h,
           fun v hv => get_user_setUser_ne db uid v _ hv⟩
  · intro hc
    simp [claim_bonus, hc]

/-- Witness for C1: a fresh account claims at time 0 and ends with 70
credits and `last_bonus_claim = 0`; a repeat claim at time 0 is refused
with the state untouched. -/
theorem claim_bonus_correct_witness :
    claim_bonus [(0, Account.fresh)] 0 0 =
      some (true, [(0, { credits := 70, videos_created := 0,
                         last_bonus_claim := some 0, referred_by := none })]) ∧
    claim_bonus [(0, { credits := 70, videos_created := 0,
                       last_bonus_claim := some 0, referred_by := none })] 0 0 =
      some (false, [(0, { credits := 70, videos_created := 0,
                          last_bonus_claim := some 0, referred_by := none })]) := by
  constructor
  · have h := (claim_bonus_correct [(0, Account.fresh)] 0 0 Account.fresh rfl).1
      (by decide)
    simpa [Account.fresh, STARTING_CREDITS, DAILY_BONUS, setUser] using h.1
  · exact (claim_bonus_correct
      [(0, { credits := 70, videos_created := 0,
             last_bonus_claim := some 0, referred_by := none })] 0 0 _ rfl).2
      (by decide)

/-- C3 counterexample: on an existing account with `referred_by` absent,
`set_referrer(7, 7)` returns `true` and records the self-referral — the
Ledger method has no `referrer_id != user_id` check, so the claim that it
always returns `false` is false. -/
theorem set_referrer_self_counterexample :
    set_referrer [(7, Account.fresh)] 7 7 =
      (true, [(7, { credits := STARTING_CREDITS, videos_created := 0,
                    last_bonus_claim := none, referred_by := some 7 })]) := by
  decide

/-- C3 amended: `set_referrer(id, id)` succeeds — returns `true` and sets
`referred_by := id` — whenever the account exists and `referred_by` is
absent, and returns `false` unchanged otherwise: the Ledger operation does
not compare `referrer_id` with `id`; the self-referral guard is enforced by
the callers (`start_command`, `check_join_callback`) before the call. -/
theorem set_referrer_self_behavior (db : UserData) (uid : Int) :
    (∀ u, get_user db uid = some u → u.referred_by = none →
        set_referrer db uid uid =
          (true, setUser db uid { u with referred_by := some uid }) ∧
        get_user (set_referrer db uid uid).2 uid =
          some { u with referred_by := some uid }) ∧
    (∀ u r, get_user db uid = some u → u.referred_by = some r →
        set_referrer db uid uid = (false, db)) ∧
    (get_user db uid = none → set_referrer db uid uid = (false, db)) := by
  refine ⟨?_, ?_, ?_⟩
  · intro u hg hr
    have hset : set_referrer db uid uid =
        (true, setUser db uid { u with referred_by := some uid }) := by
      simp [set_referrer, hg, hr]
    exact ⟨hset, by rw [hset]; exact get_user_setUser_self db uid _ u hg⟩
  · intro u r hg hr
    simp [set_referrer, hg, hr]
  · intro hg
    simp [set_referrer, hg]

/-- C5: after a successful `set_referrer(id, r)`, every later
`set_referrer(id, r2)` returns `false`, changes nothing, and the stored
`referred_by` of the account stays `r`. -/
theorem set_referrer_write_once (db : UserData) (uid r r2 : Int)
    (h : (set_referrer db uid r).1 = true) :
    set_referrer (set_referrer db uid r).2 uid r2 =
      (false, (set_referrer db uid r).2) ∧
    (get_user (set_referrer db uid r).2 uid).map Account.referred_by =
      some (some r) ∧
    (get_user (set_referrer (set_referrer db uid r).2 uid r2).2 uid).map
      Account.referred_by = some (some r) := by
  cases hg : get_user db uid with
  | none => simp [set_referrer, hg] at h
  | some u =>
    cases hr : u.referred_by with
    | some w => simp [set_referrer, hg, hr] at h
    | none =>
      have hset : set_referrer db uid r =
          (true, setUser db uid { u with referred_by := some r }) := by
        simp [set_referrer, hg, hr]
      have h1 : get_user (setUser db uid { u with referred_by := some r }) uid
          = some { u with referred_by := some r } :=
        get_user_setUser_self db uid _ u hg
      have h2 : set_referrer (setUser db uid { u with referred_by := some r })
          uid r2 = (false, setUser db uid { u with referred_by := some r }) := by
        simp [set_referrer, h1]
      rw [hset]
      exact ⟨h2, by rw [h1]; rfl, by rw [h2]; rw [h1]; rfl⟩

/-- Witness for C5: account 1 is referred by 2; a later attempt by 3 is
refused and the stored referrer stays 2. -/
theorem set_referrer_write_once_witness :
    (set_referrer [(1, Account.fresh)] 1 2).1 = true ∧
    (set_referrer (set_referrer [(1, Account.fresh)] 1 2).2 1 3 =
        (false, (set_referrer [(1, Account.fresh)] 1 2).2) ∧
      (get_user (set_referrer [(1, Account.fresh)] 1 2).2 1).map
        Account.referred_by = some (some 2) ∧
      (get_user (set_referrer (set_referrer [(1, Account.fresh)] 1 2).2 1 3).2
        1).map Account.referred_by = some (some 2)) :=
  ⟨by decide, set_referrer_write_once [(1, Account.fresh)] 1 2 3 (by decide)⟩

/-- C4 counterexample: `claim_bonus` on an id with no account does not
return normally — `can_claim_bonus` treats the missing account as eligible
and the write `users_data[user_id_str][...]` then raises `KeyError`,
embedded here as a `none` result. -/
theorem claim_bonus_missing_account_raises :
    claim_bonus ([] : UserData) 1 0 = none := rfl

/-- C4 amended: for an id with no account, `update_credits`,
`record_video_generation`, `can_claim_bonus` and `set_referrer` return
normally, change nothing and report a no-result (absent/false/true-read),
and `add_user`/`get_user` are total by construction; `claim_bonus` alone
raises (`KeyError`) instead of returning. -/
theorem ledger_missing_account_behavior (db : UserData)
    (uid now delta r : Int) (h : get_user db uid = none) :
    update_credits db uid delta = (none, db) ∧
    record_video_generation db uid = db ∧
    can_claim_bonus db uid now = true ∧
    set_referrer db uid r = (false, db) ∧
    claim_bonus db uid now = none := by
  refine ⟨by simp [update_credits, h], by simp [record_video_generation, h],
          by simp [can_claim_bonus, h], by simp [set_referrer, h], ?_⟩
  simp [claim_bonus, can_claim_bonus, h]

/-- Witness for C4 at the empty ledger. -/
theorem ledger_missing_account_behavior_witness :
    get_user ([] : UserData) 1 = none ∧
    (update_credits ([] : UserData) 1 5 = (none, []) ∧
      record_video_generation ([] : UserData) 1 = [] ∧
      can_claim_bonus ([] : UserData) 1 0 = true ∧
      set_referrer ([] : UserData) 1 2 = (false, []) ∧
      claim_bonus ([] : UserData) 1 0 = none) :=
  ⟨rfl, ledger_missing_account_behavior [] 1 0 5 2 rfl⟩

/-- C7: for an existing account, `can_claim_bonus` holds exactly when the
account never claimed or at least 24 hours have elapsed since
`last_bonus_claim`; right after a successful `claim_bonus` it is false at
the claim time, and becomes true again exactly when time has advanced by at
least 24 hours. -/
theorem can_claim_bonus_correct (db : UserData) (uid now : Int) (u : Account)
    (h : get_user db uid = some u) :
    (can_claim_bonus db uid now = true ↔
        u.last_bonus_claim = none ∨
        ∃ t, u.last_bonus_claim = some t ∧ now - t ≥ HOURS24) ∧
    (∀ db2, claim_bonus db uid now = some (true, db2) →
        can_claim_bonus db2 uid now = false ∧
        ∀ later, (can_claim_bonus db2 uid later = true ↔
          later - now ≥ HOURS24)) := by
  constructor
  · cases hl : u.last_bonus_claim with
    | none => simp [can_claim_bonus, h, hl]
    | some t =>
      simp only [can_claim_bonus, h, hl, HOURS24, decide_eq_true_eq,
        Option.some.injEq, ge_iff_le]
      constructor
      · intro h2
        exact Or.inr ⟨t, rfl, by omega⟩
      · rintro (h2 | ⟨t2, ht2, h3⟩)
        · exact absurd h2 (by simp)
        · subst ht2; omega
  · intro db2 hd
    cases hc : can_claim_bonus db uid now with
    | false => simp [claim_bonus, hc] at hd
    | true =>
      rw [claim_bonus_success_shape db uid now u h hc] at hd
      simp only [Option.some.injEq, Prod.mk.injEq, true_and] at hd
      subst hd
      have hg2 : get_user (setUser db uid
          { u with credits := u.credits + DAILY_BONUS,
                   last_bonus_claim := some now }) uid =
          some { u with credits := u.credits + DAILY_BONUS,
                        last_bonus_claim := some now } :=
        get_user_setUser_self db uid _ u h
      constructor
      · simp only [can_claim_bonus, hg2, HOURS24]
        simp only [decide_eq_false_iff_not, ge_iff_le]
        omega
      · intro later
        simp only [can_claim_bonus, hg2, HOURS24, decide_eq_true_eq, ge_iff_le]
        omega

/-- Witness for C7 on a fresh account claiming at time 0. -/
theorem can_claim_bonus_correct_witness :
    get_user [(4, Account.fresh)] 4 = some Account.fresh ∧
    ((can_claim_bonus [(4, Account.fresh)] 4 0 = true ↔
        Account.fresh.last_bonus_claim = none ∨
        ∃ t, Account.fresh.last_bonus_claim = some t ∧
          (0 : Int) - t ≥ HOURS24) ∧
     (∀ db2, claim_bonus [(4, Account.fresh)] 4 0 = some (true, db2) →
        can_claim_bonus db2 4 0 = false ∧
        ∀ later, (can_claim_bonus db2 4 later = true ↔
          later - 0 ≥ HOURS24))) :=
  ⟨rfl, can_claim_bonus_correct [(4, Account.fresh)] 4 0 Account.fresh rfl⟩

/-- C8: for an existing account, the generation flow on a parsed response
with `success` true debits exactly `VIDEO_COST`, increments
`videos_created` by exactly 1 and touches no other account; on any other
outcome (timeout, non-2xx status, unparsable body, `success` false) the
ledger state is exactly as before. -/
theorem process_prompt_ledger_correct (db : UserData) (uid : Int)
    (u : Account) (h : get_user db uid = some u) :
    (∀ url, get_user (process_prompt_ledger db uid
        (ApiResult.payload true url)) uid =
        some { u with credits := u.credits - VIDEO_COST,
                      videos_created := u.videos_created + 1 } ∧
      ∀ v, v ≠ uid →
        get_user (process_prompt_ledger db uid (ApiResult.payload true url)) v
          = get_user db v) ∧
    (∀ r : ApiResult, (∀ url, r ≠ ApiResult.payload true url) →
        process_prompt_ledger db uid r = db) := by
  have hicast : u.credits + -VIDEO_COST = u.credits - VIDEO_COST := by ring
  constructor
  · intro url
    have h1 : update_credits db uid (-VIDEO_COST) =
        (some (u.credits - VIDEO_COST),
         setUser db uid { u with credits := u.credits - VIDEO_COST }) := by
      simp [update_credits, h, hicast]
    have h2 : get_user (setUser db uid
        { u with credits := u.credits - VIDEO_COST }) uid =
        some { u with credits := u.credits - VIDEO_COST } :=
      get_user_setUser_self db uid _ u h
    have hled : process_prompt_ledger db uid (ApiResult.payload true url) =
        setUser db uid { u with credits := u.credits - VIDEO_COST,
                                videos_created := u.videos_created + 1 } := by
      simp [process_prompt_ledger, h1, record_video_generation, h2,
            setUser_setUser, hicast]
    constructor
    · rw [hled]
      exact get_user_setUser_self db uid _ u h
    · intro v hv
      rw [hled]
      exact get_user_setUser_ne db uid v _ hv
  · intro r hr
    cases r with
    | timeout => rfl
    | httpError => rfl
    | malformedJson => rfl
    | payload s url =>
      cases s with
      | false => rfl
      | true => exact absurd rfl (hr url)

/-- Witness for C8: a fresh account (50 credits) generating once ends with
40 credits and one video; a timeout leaves the ledger untouched. -/
theorem process_prompt_ledger_correct_witness :
    get_user (process_prompt_ledger [(3, Account.fresh)] 3
        (ApiResult.payload true (some "u"))) 3 =
      some { credits := 40, videos_created := 1, last_bonus_claim := none,
             referred_by := none } ∧
    process_prompt_ledger [(3, Account.fresh)] 3 ApiResult.timeout =
      [(3, Account.fresh)] := by
  constructor
  · have h := ((process_prompt_ledger_correct [(3, Account.fresh)] 3
        Account.fresh rfl).1 (some "u")).1
    simpa [Account.fresh, STARTING_CREDITS, VIDEO_COST] using h
  · exact (process_prompt_ledger_correct [(3, Account.fresh)] 3
      Account.fresh rfl).2 ApiResult.timeout (by intro url; simp)

/-- The broadcast loop with its two accumulators: when no delivery raises
outside `(Forbidden, BadRequest)`, it returns the accumulators plus the
number of successful and of caught failed deliveries. -/
theorem broadcast_loop_counts (outcome : Int → DeliveryOutcome)
    (ids : List Int) (sent failed : Nat)
    (h : ∀ uid ∈ ids, outcome uid ≠ DeliveryOutcome.otherError) :
    broadcast_loop outcome ids sent failed =
      some (sent + ids.countP (fun v => decide (outcome v = DeliveryOutcome.ok)),
            failed + ids.countP (fun v => decide (¬ outcome v = DeliveryOutcome.ok))) := by
  induction ids generalizing sent failed with
  | nil => simp [broadcast_loop]
  | cons uid rest ih =>
    have hu := h uid (by simp)
    have hrest : ∀ v ∈ rest, outcome v ≠ DeliveryOutcome.otherError :=
      fun v hv => h v (by simp [hv])
    cases ho : outcome uid with
    | ok =>
      simp only [broadcast_loop, ho]
      rw [ih _ _ hrest]
      simp only [List.countP_cons, ho, Option.some.injEq, Prod.mk.injEq,
        decide_eq_true_eq, decide_not]
      refine ⟨by simp; omega, by simp⟩
    | forbidden =>
      simp only [broadcast_loop, ho]
      rw [ih _ _ hrest]
      simp only [List.countP_cons, ho, Option.some.injEq, Prod.mk.injEq,
        decide_eq_true_eq, decide_not]
      refine ⟨by simp, by simp; omega⟩
    | badRequest =>
      simp only [broadcast_loop, ho]
      rw [ih _ _ hrest]
      simp only [List.countP_cons, ho, Option.some.injEq, Prod.mk.injEq,
        decide_eq_true_eq, decide_not]
      refine ⟨by simp, by simp; omega⟩
    | otherError => exact absurd ho hu

/-- C9 counterexample: with three accounts and only the second delivery
failing — with an exception outside `(Forbidden, BadRequest)` — the
exception escapes the loop (`none`): no `(sent, failed)` count is
reported, so the claim does not hold for every outcome sequence. -/
theorem admin_broadcast_send_counterexample :
    admin_broadcast_send
      [(1, Account.fresh), (2, Account.fresh), (3, Account.fresh)]
      (fun uid => if uid = 2 then DeliveryOutcome.otherError
                  else DeliveryOutcome.ok) = none := by
  decide

/-- C9 amended: when every per-recipient outcome is a success or a
`Forbidden`/`BadRequest` failure, the broadcast visits every known account
id, counts successes in `sent` and caught failures in `failed` (3 accounts
with only the 2nd failing report `sent = 2, failed = 1`), a failure does
not stop the remaining deliveries, and no exception escapes; a delivery
raising any other exception class escapes the loop. -/
theorem admin_broadcast_send_correct (db : UserData)
    (outcome : Int → DeliveryOutcome)
    (h : ∀ uid ∈ get_all_user_ids db, outcome uid ≠ DeliveryOutcome.otherError) :
    admin_broadcast_send db outcome =
      some ((get_all_user_ids db).countP
              (fun v => decide (outcome v = DeliveryOutcome.ok)),
            (get_all_user_ids db).countP
              (fun v => decide (¬ outcome v = DeliveryOutcome.ok))) := by
  have h2 := broadcast_loop_counts outcome (get_all_user_ids db) 0 0 h
  simpa [admin_broadcast_send] using h2

/-- Witness for C9: three accounts, the second delivery raises
`Forbidden`: the report is `sent = 2, failed = 1`. -/
theorem admin_broadcast_send_correct_witness :
    admin_broadcast_send
      [(1, Account.fresh), (2, Account.fresh), (3, Account.fresh)]
      (fun uid => if uid = 2 then DeliveryOutcome.forbidden
                  else DeliveryOutcome.ok) = some (2, 1) := by
  have h := admin_broadcast_send_correct
    [(1, Account.fresh), (2, Account.fresh), (3, Account.fresh)]
    (fun uid => if uid = 2 then DeliveryOutcome.forbidden
                else DeliveryOutcome.ok)
    (by decide)
  rw [h]
  decide

end VisionCraft
